import Mathlib

/-!
Shallow embedding of the order-management REST controller in
`src/routes/api/order-routes.ts` (Express router over a Sequelize-style ORM).

The persistence layer (`findByPk`, `findAll`, `create`, `save`, `destroy`) is an
external collaborator of this controller; we model it as an explicit state value
`DB`:
  * `products` is a key-value store from product id to the product row
    (price, stock), matching `Product.findByPk` / `productDetails.save()`;
  * `orders` is the list of order rows, with `nextOrderId` supplying the
    auto-increment primary key used by `Order.create`;
  * `orderItems` is the list of order-item rows.
Each route handler becomes a pure function from its request data and the
current `DB` to the emitted HTTP response(s) and the successor `DB`.
Quantities are natural numbers (the spec's "positive integer"); prices and
stock are integers.  Email side effects happen strictly after the response is
sent and touch no entity, so they are not part of the state.
-/

/-- A `Product` row: `id` is the key in `DB.products`; the row holds
`price` and the mutable `stock` counter. -/
structure ProductRec where
  price : Int
  stock : Int
deriving Repr, DecidableEq

/-- An `Order` row (`Order.create({ userId, totalPrice, status })`). -/
structure OrderRec where
  id : Nat
  userId : Nat
  totalPrice : Int
  status : String
deriving Repr, DecidableEq

/-- An `OrderItem` row (`OrderItem.create({ orderId, productId, quantity, price })`). -/
structure OrderItemRec where
  orderId : Nat
  productId : Nat
  quantity : Nat
  price : Int
deriving Repr, DecidableEq

/-- One element of the request body's `products` array in `POST /orders`. -/
structure ReqItem where
  productId : Nat
  quantity : Nat
deriving Repr, DecidableEq

/-- The persistent state seen by the controller. -/
structure DB where
  products : Nat → Option ProductRec
  orders : List OrderRec
  orderItems : List OrderItemRec
  nextOrderId : Nat

/-- Model of `Product.findByPk pid`. -/
def DB.findProduct (db : DB) (pid : Nat) : Option ProductRec :=
  db.products pid

/-- Model of `productDetails.save()`: persist the row under its primary key. -/
def DB.saveProduct (db : DB) (pid : Nat) (p : ProductRec) : DB :=
  { db with products := fun i => if i = pid then some p else db.products i }

/-- Model of `Order.findByPk oid`. -/
def DB.findOrder (db : DB) (oid : Nat) : Option OrderRec :=
  db.orders.find? (fun o => o.id == oid)

/-- Model of `order.save()` after mutating a fetched order row: the row is
persisted under its primary key. -/
def DB.saveOrder (db : DB) (o : OrderRec) : DB :=
  { db with orders := db.orders.map (fun q => if q.id = o.id then o else q) }

/-- Response bodies the controller can emit (embedded ORM join attributes are
presentation of the same rows and are elided). -/
inductive Body where
  | ordersList : List OrderRec → Body
  | orderOne : OrderRec → Body
  | orderFetched : Option OrderRec → Body
  | errMsg : String → Body
  | deletedMsg : String → Nat → Body
deriving Repr, DecidableEq

/-- One `res.status(n).json(b)` call. -/
structure Resp where
  status : Nat
  body : Body
deriving Repr, DecidableEq

/-- Message template of the 400 response in `POST /orders`. -/
def insufficientMsg (pid : Nat) : String :=
  s!"Insufficient stock for product ID {pid}"

/-- Model of `Order.findAll()` in `GET /orders`: the ORM query, which always
yields a collection (modelled as `some` of the order list), never `null`. -/
def ordersFindAll (db : DB) : Option (List OrderRec) :=
  some db.orders

/-- The branching of the `GET /orders` handler on the query result:
`if (!orders) 404 else 200`. -/
def listOrdersHandler (queryResult : Option (List OrderRec)) : Resp :=
  match queryResult with
  | none => { status := 404, body := .errMsg "No orders found" }
  | some os => { status := 200, body := .ordersList os }

/-- `GET /orders` (admin): list all orders. -/
def listOrders (db : DB) : Resp × DB :=
  (listOrdersHandler (ordersFindAll db), db)

/-- `GET /orders/:id`: one order or 404. -/
def getOrder (oid : Nat) (db : DB) : Resp × DB :=
  match db.findOrder oid with
  | some o => ({ status := 200, body := .orderOne o }, db)
  | none => ({ status := 404, body := .errMsg "Order not found" }, db)

/-- First loop of `POST /orders`: for each requested item fetch the product;
skip if missing; return 400 data at the first item whose (current) stock is
below its quantity; otherwise accumulate `totalPrice` and persist the
decremented stock.  Returns (failing productId if any, accumulated total,
state after the decrements performed so far). -/
def createStockPass : List ReqItem → DB → Int → Option Nat × Int × DB
  | [], db, total => (none, total, db)
  | item :: rest, db, total =>
    match db.findProduct item.productId with
    | none => createStockPass rest db total
    | some p =>
      if p.stock < (item.quantity : Int) then
        (some item.productId, total, db)
      else
        createStockPass rest
          (db.saveProduct item.productId { p with stock := p.stock - (item.quantity : Int) })
          (total + p.price * (item.quantity : Int))

/-- Second loop of `POST /orders`: re-fetch each product and create one
`OrderItem` per requested item whose product exists, snapshotting the price. -/
def createItemsPass (oid : Nat) : List ReqItem → DB → DB
  | [], db => db
  | item :: rest, db =>
    match db.findProduct item.productId with
    | none => createItemsPass oid rest db
    | some p =>
      createItemsPass oid rest
        { db with
          orderItems := db.orderItems ++
            [{ orderId := oid, productId := item.productId,
               quantity := item.quantity, price := p.price }] }

/-- `POST /orders` (authenticated): create a new order. -/
def createOrder (userId : Nat) (items : List ReqItem) (db : DB) : Resp × DB :=
  match createStockPass items db 0 with
  | (some pid, _, db1) =>
    ({ status := 400, body := .errMsg (insufficientMsg pid) }, db1)
  | (none, totalPrice, db1) =>
    let oid := db1.nextOrderId
    let newOrder : OrderRec :=
      { id := oid, userId := userId, totalPrice := totalPrice, status := "pending" }
    let db2 : DB :=
      { db1 with orders := db1.orders ++ [newOrder], nextOrderId := oid + 1 }
    let db3 := createItemsPass oid items db2
    ({ status := 201, body := .orderFetched (db3.findOrder oid) }, db3)

/-- `PUT /orders/:id` (admin): overwrite `status` with the caller's string. -/
def updateOrderStatus (oid : Nat) (st : String) (db : DB) : Resp × DB :=
  match db.findOrder oid with
  | none => ({ status := 404, body := .errMsg "Order not found" }, db)
  | some o =>
    let o' : OrderRec := { o with status := st }
    ({ status := 200, body := .orderOne o' }, db.saveOrder o')

/-- The stock-restore loop of `DELETE /orders/:id`: for each order item, if
the product still exists, add the item's quantity back to its stock. -/
def restoreStock : List OrderItemRec → DB → DB
  | [], db => db
  | it :: rest, db =>
    match db.findProduct it.productId with
    | none => restoreStock rest db
    | some p =>
      restoreStock rest
        (db.saveProduct it.productId { p with stock := p.stock + (it.quantity : Int) })

/-- `DELETE /orders/:id` (admin): restore stock for the order's items, delete
the items, delete the order, respond 200 with the deletion count. -/
def deleteOrder (oid : Nat) (db : DB) : Resp × DB :=
  let items := db.orderItems.filter (fun it => it.orderId == oid)
  match db.findOrder oid with
  | none => ({ status := 404, body := .errMsg "Order not found" }, db)
  | some _ =>
    let db1 := restoreStock items db
    let db2 : DB := { db1 with orderItems := db1.orderItems.filter (fun it => it.orderId != oid) }
    let deleted := (db2.orders.filter (fun o => o.id == oid)).length
    let db3 : DB := { db2 with orders := db2.orders.filter (fun o => o.id != oid) }
    ({ status := 200, body := .deletedMsg "Order Deleted" deleted }, db3)

/-- `GET /orders/user-orders/:userId` (authenticated): the 403 check lacks an
early return, so its response is followed by the 200 with the data. -/
def listOrdersForUser (userId requesterId : Nat) (requesterRole : String) (db : DB) :
    List Resp × DB :=
  let auth : List Resp :=
    if requesterId ≠ userId ∧ requesterRole ≠ "admin" then
      [{ status := 403, body := .errMsg "Forbidden: not your order" }]
    else []
  let result := db.orders.filter (fun o => o.userId == userId)
  (auth ++ [{ status := 200, body := .ordersList result }], db)

/-! Concrete states used by witnesses and counterexamples. -/

/-- A store with no rows at all. -/
def dbEmpty : DB :=
  { products := fun _ => none, orders := [], orderItems := [], nextOrderId := 1 }

/-- A store with one product (id 1, price 10, stock 5), as in the spec's
concrete scenario. -/
def dbOneProduct : DB :=
  { products := fun i => if i = 1 then some { price := 10, stock := 5 } else none,
    orders := [], orderItems := [], nextOrderId := 1 }

/-- A store with one pending order (id 1) owned by user 4. -/
def dbOneOrder : DB :=
  { products := fun _ => none,
    orders := [{ id := 1, userId := 4, totalPrice := 5, status := "pending" }],
    orderItems := [], nextOrderId := 2 }

/-- Claim C5: deleting an absent order id responds 404 "Order not found" and
mutates no entity (the state is returned unchanged). -/
theorem C5_delete_absent (oid : Nat) (db : DB) (h : db.findOrder oid = none) :
    deleteOrder oid db = ({ status := 404, body := .errMsg "Order not found" }, db) := by
  simp [deleteOrder, h]

/-- Witness for C5 at a concrete state: the empty store has no order 1. -/
theorem C5_witness :
    dbEmpty.findOrder 1 = none ∧
    deleteOrder 1 dbEmpty = ({ status := 404, body := .errMsg "Order not found" }, dbEmpty) :=
  ⟨rfl, C5_delete_absent 1 dbEmpty rfl⟩

/-- Claim C3: when the requester is neither the owner nor an admin,
`listOrdersForUser` emits the 403 body and then still emits the 200 with the
requested user's orders; the last (terminal) response has status 200, so the
403 is never terminal. -/
theorem C3_forbidden_not_terminal (userId requesterId : Nat) (role : String) (db : DB)
    (hid : requesterId ≠ userId) (hrole : role ≠ "admin") :
    listOrdersForUser userId requesterId role db =
      ([{ status := 403, body := .errMsg "Forbidden: not your order" },
        { status := 200, body := .ordersList (db.orders.filter (fun o => o.userId == userId)) }],
       db) ∧
    ((listOrdersForUser userId requesterId role db).1.getLast?).map Resp.status = some 200 := by
  have h : listOrdersForUser userId requesterId role db =
      ([{ status := 403, body := .errMsg "Forbidden: not your order" },
        { status := 200, body := .ordersList (db.orders.filter (fun o => o.userId == userId)) }],
       db) := by
    simp [listOrdersForUser, hid, hrole]
  refine ⟨h, ?_⟩
  rw [h]
  simp

/-- Witness for C3: requester 2 asks for user 1's orders without the admin
role; both hypotheses are discharged by computation. -/
theorem C3_witness :
    listOrdersForUser 1 2 "user" dbOneOrder =
      ([{ status := 403, body := .errMsg "Forbidden: not your order" },
        { status := 200, body := .ordersList (dbOneOrder.orders.filter (fun o => o.userId == 1)) }],
       dbOneOrder) ∧
    ((listOrdersForUser 1 2 "user" dbOneOrder).1.getLast?).map Resp.status = some 200 :=
  C3_forbidden_not_terminal 1 2 "user" dbOneOrder (by decide) (by decide)

/-- Claim C9: `GET /orders` always answers 200 with the whole (possibly
empty) order collection; the underlying query never yields `none`, and the
handler's 404 branch fires exactly on `none`, so it is unreachable. -/
theorem C9_list_orders_404_unreachable (db : DB) (q : Option (List OrderRec)) :
    listOrders db = ({ status := 200, body := .ordersList db.orders }, db) ∧
    ordersFindAll db = some db.orders ∧
    ((listOrdersHandler q).status = 404 ↔ q = none) := by
  refine ⟨rfl, rfl, ?_⟩
  cases q <;> simp [listOrdersHandler]

/-- Claim C10: creating an order from an empty item list succeeds with 201,
appends an order row with `totalPrice` 0 and status "pending", and leaves
order items and products untouched. -/
theorem C10_empty_items (userId : Nat) (db : DB) :
    (createOrder userId [] db).1.status = 201 ∧
    (createOrder userId [] db).2.orders =
      db.orders ++ [{ id := db.nextOrderId, userId := userId, totalPrice := 0, status := "pending" }] ∧
    (createOrder userId [] db).2.orderItems = db.orderItems ∧
    (createOrder userId [] db).2.products = db.products :=
  ⟨rfl, rfl, rfl, rfl⟩

/-- Claim C8: `PUT /orders/:id` overwrites the status of an existing order
verbatim with the caller's string, changes nothing but that one field of the
matching order row (products, order items, the id counter and all other order
rows are untouched), and answers 200 with the updated row; on an absent id it
answers 404 and changes nothing. -/
theorem C8_update_status_verbatim (oid : Nat) (st : String) (db : DB) :
    (∀ o, db.findOrder oid = some o →
      updateOrderStatus oid st db =
        ({ status := 200, body := .orderOne { o with status := st } },
         { db with orders :=
            db.orders.map (fun q => if q.id = o.id then { o with status := st } else q) })) ∧
    (db.findOrder oid = none →
      updateOrderStatus oid st db = ({ status := 404, body := .errMsg "Order not found" }, db)) := by
  constructor
  · intro o h
    simp [updateOrderStatus, h, DB.saveOrder]
  · intro h
    simp [updateOrderStatus, h]

/-- Witness for C8 on the one-order store: order 1 exists, and setting the
free-form status "shipped-back" rewrites exactly that field. -/
theorem C8_witness :
    dbOneOrder.findOrder 1 = some { id := 1, userId := 4, totalPrice := 5, status := "pending" } ∧
    updateOrderStatus 1 "shipped-back" dbOneOrder =
      ({ status := 200,
         body := .orderOne { id := 1, userId := 4, totalPrice := 5, status := "shipped-back" } },
       { dbOneOrder with orders :=
          dbOneOrder.orders.map (fun q =>
            if q.id = 1 then { id := 1, userId := 4, totalPrice := 5, status := "shipped-back" }
            else q) }) :=
  ⟨rfl, (C8_update_status_verbatim 1 "shipped-back" dbOneOrder).1
    { id := 1, userId := 4, totalPrice := 5, status := "pending" } rfl⟩

/-! Preservation lemmas for the stock invariant. -/

/-- Every product row in the store has non-negative stock. -/
def stockOk (db : DB) : Prop :=
  ∀ pid p, db.products pid = some p → 0 ≤ p.stock

/-- Reading the store after a save: the saved key holds the new row, every
other key is untouched. -/
theorem saveProduct_products (db : DB) (pid : Nat) (p : ProductRec) (i : Nat) :
    (db.saveProduct pid p).products i = if i = pid then some p else db.products i :=
  rfl

/-- The invariant only looks at the product column. -/
theorem stockOk_of_products_eq {db1 db2 : DB} (hprod : db2.products = db1.products)
    (h : stockOk db1) : stockOk db2 := by
  intro pid p hp
  exact h pid p (by rw [← hprod]; exact hp)

/-- The stock-check-then-decrement loop keeps all stocks non-negative: it only
writes `p.stock - quantity` after checking `¬ (p.stock < quantity)`. -/
theorem createStockPass_stockOk (items : List ReqItem) (db : DB) (t : Int)
    (h : stockOk db) : stockOk (createStockPass items db t).2.2 := by
  induction items generalizing db t with
  | nil => exact h
  | cons item rest ih =>
    simp only [createStockPass]
    cases hp : db.findProduct item.productId with
    | none => exact ih db t h
    | some p =>
      by_cases hs : p.stock < (item.quantity : Int)
      · simpa [hs] using h
      · simp only [hs, if_false]
        apply ih
        intro pid q hq
        rw [saveProduct_products] at hq
        by_cases hpid : pid = item.productId
        · rw [if_pos hpid] at hq
          cases hq
          simp only []
          omega
        · rw [if_neg hpid] at hq
          exact h pid q hq

/-- The second creation loop never touches the product column (nor the order
rows or the id counter). -/
theorem createItemsPass_state (oid : Nat) (items : List ReqItem) (db : DB) :
    (createItemsPass oid items db).products = db.products ∧
    (createItemsPass oid items db).orders = db.orders ∧
    (createItemsPass oid items db).nextOrderId = db.nextOrderId := by
  induction items generalizing db with
  | nil => exact ⟨rfl, rfl, rfl⟩
  | cons item rest ih =>
    simp only [createItemsPass]
    cases hp : db.findProduct item.productId with
    | none => exact ih db
    | some p => exact ih _

/-- The first creation loop only touches the product column. -/
theorem createStockPass_state (items : List ReqItem) (db : DB) (t : Int) :
    (createStockPass items db t).2.2.orders = db.orders ∧
    (createStockPass items db t).2.2.orderItems = db.orderItems ∧
    (createStockPass items db t).2.2.nextOrderId = db.nextOrderId := by
  induction items generalizing db t with
  | nil => exact ⟨rfl, rfl, rfl⟩
  | cons item rest ih =>
    simp only [createStockPass]
    cases hp : db.findProduct item.productId with
    | none => exact ih db t
    | some p =>
      by_cases hs : p.stock < (item.quantity : Int)
      · simp [hs]
      · simp only [hs, if_false]
        exact ih _ _

/-- The stock-restore loop only adds natural quantities to existing stocks,
so it keeps all stocks non-negative. -/
theorem restoreStock_stockOk (items : List OrderItemRec) (db : DB)
    (h : stockOk db) : stockOk (restoreStock items db) := by
  induction items generalizing db with
  | nil => exact h
  | cons it rest ih =>
    simp only [restoreStock]
    cases hp : db.findProduct it.productId with
    | none => exact ih db h
    | some p =>
      apply ih
      intro pid q hq
      rw [saveProduct_products] at hq
      by_cases hpid : pid = it.productId
      · rw [if_pos hpid] at hq
        cases hq
        have hp0 : 0 ≤ p.stock := h it.productId p hp
        simp only []
        omega
      · rw [if_neg hpid] at hq
        exact h pid q hq

/-- The stock-restore loop only touches the product column. -/
theorem restoreStock_state (items : List OrderItemRec) (db : DB) :
    (restoreStock items db).orders = db.orders ∧
    (restoreStock items db).orderItems = db.orderItems ∧
    (restoreStock items db).nextOrderId = db.nextOrderId := by
  induction items generalizing db with
  | nil => exact ⟨rfl, rfl, rfl⟩
  | cons it rest ih =>
    simp only [restoreStock]
    cases hp : db.findProduct it.productId with
    | none => exact ih db
    | some p => exact ih _

/-- Claim C6: from a state where every stock is non-negative, each of the six
operations leaves every stock non-negative — creation decrements only behind
its per-item check, deletion only adds, the rest never write stock. -/
theorem C6_stock_nonneg (db : DB) (h : stockOk db) (oid uid requesterId userId : Nat)
    (items : List ReqItem) (st role : String) :
    stockOk (listOrders db).2 ∧
    stockOk (getOrder oid db).2 ∧
    stockOk (createOrder userId items db).2 ∧
    stockOk (updateOrderStatus oid st db).2 ∧
    stockOk (deleteOrder oid db).2 ∧
    stockOk (listOrdersForUser uid requesterId role db).2 := by
  refine ⟨h, ?_, ?_, ?_, ?_, h⟩
  · unfold getOrder
    cases hf : db.findOrder oid <;> exact h
  · have hpass := createStockPass_stockOk items db 0 h
    unfold createOrder
    rcases hps : createStockPass items db 0 with ⟨err, tot, db1⟩
    have hdb1 : stockOk db1 := by rw [hps] at hpass; exact hpass
    cases err with
    | some pid => exact hdb1
    | none =>
      simp only []
      apply stockOk_of_products_eq (createItemsPass_state _ _ _).1
      exact hdb1
  · unfold updateOrderStatus
    cases hf : db.findOrder oid with
    | none => exact h
    | some o => exact stockOk_of_products_eq rfl h
  · unfold deleteOrder
    cases hf : db.findOrder oid with
    | none => exact h
    | some o =>
      simp only []
      exact stockOk_of_products_eq rfl
        (restoreStock_stockOk (db.orderItems.filter (fun it => it.orderId == oid)) db h)

/-- Witness for C6: the empty store satisfies the invariant, and all six
operations preserve it there. -/
theorem C6_witness :
    stockOk dbEmpty ∧
    (stockOk (listOrders dbEmpty).2 ∧
     stockOk (getOrder 1 dbEmpty).2 ∧
     stockOk (createOrder 9 [{ productId := 1, quantity := 3 }] dbEmpty).2 ∧
     stockOk (updateOrderStatus 1 "done" dbEmpty).2 ∧
     stockOk (deleteOrder 1 dbEmpty).2 ∧
     stockOk (listOrdersForUser 1 2 "user" dbEmpty).2) :=
  have h0 : stockOk dbEmpty := fun _ _ hp => Option.noConfusion hp
  ⟨h0, C6_stock_nonneg dbEmpty h0 1 1 2 9 [{ productId := 1, quantity := 3 }] "done" "user"⟩

/-! Characterization of the stock-check-and-decrement loop. -/

/-- Sum of `price * quantity` over the items whose product exists in `db`
(missing products contribute nothing). -/
def passTotal (db : DB) (items : List ReqItem) : Int :=
  (items.map (fun it =>
    match db.products it.productId with
    | some p => p.price * (it.quantity : Int)
    | none => 0)).sum

theorem passTotal_nil (db : DB) : passTotal db [] = 0 := rfl

theorem passTotal_cons (db : DB) (item : ReqItem) (rest : List ReqItem) :
    passTotal db (item :: rest) =
      (match db.products item.productId with
       | some p => p.price * (item.quantity : Int)
       | none => 0) + passTotal db rest := by
  simp [passTotal]

/-- The accumulated total only depends on the rows of the referenced products. -/
theorem passTotal_congr (db1 db2 : DB) (items : List ReqItem)
    (h : ∀ it ∈ items, db2.products it.productId = db1.products it.productId) :
    passTotal db2 items = passTotal db1 items := by
  induction items with
  | nil => rfl
  | cons item rest ih =>
    rw [passTotal_cons, passTotal_cons, h item (List.mem_cons_self _ _),
      ih fun it hit => h it (List.mem_cons_of_mem _ hit)]

/-- A successful run of the first loop: if the requested products are pairwise
distinct and every existing one has stock at least its requested quantity,
the loop reports no failure, adds exactly the price/quantity total, decrements
each existing referenced product's stock by exactly its quantity, and leaves
every other product row alone. -/
theorem createStockPass_ok (items : List ReqItem) (db : DB) (t : Int)
    (hnd : (items.map ReqItem.productId).Nodup)
    (hok : ∀ it ∈ items, ∀ p, db.products it.productId = some p →
      (it.quantity : Int) ≤ p.stock) :
    (createStockPass items db t).1 = none ∧
    (createStockPass items db t).2.1 = t + passTotal db items ∧
    (∀ pid, pid ∉ items.map ReqItem.productId →
      (createStockPass items db t).2.2.products pid = db.products pid) ∧
    (∀ it ∈ items, ∀ p, db.products it.productId = some p →
      (createStockPass items db t).2.2.products it.productId =
        some { p with stock := p.stock - (it.quantity : Int) }) ∧
    (∀ it ∈ items, db.products it.productId = none →
      (createStockPass items db t).2.2.products it.productId = none) := by
  induction items generalizing db t with
  | nil =>
    refine ⟨rfl, by simp [passTotal_nil, createStockPass], fun pid _ => rfl, ?_, ?_⟩
    · intro it hit; cases hit
    · intro it hit; cases hit
  | cons item rest ih =>
    rw [List.map_cons, List.nodup_cons] at hnd
    obtain ⟨hnotin, hndrest⟩ := hnd
    have hokrest : ∀ it ∈ rest, ∀ p, db.products it.productId = some p →
        (it.quantity : Int) ≤ p.stock :=
      fun it hit => hok it (List.mem_cons_of_mem _ hit)
    cases hp : db.products item.productId with
    | none =>
      have hstep : createStockPass (item :: rest) db t = createStockPass rest db t := by
        simp [createStockPass, DB.findProduct, hp]
      obtain ⟨h1, h2, h3, h4, h5⟩ := ih db t hndrest hokrest
      rw [hstep]
      refine ⟨h1, ?_, ?_, ?_, ?_⟩
      · rw [h2, passTotal_cons, hp]
        ring
      · intro pid hpid
        simp only [List.map_cons, List.mem_cons, not_or] at hpid
        exact h3 pid hpid.2
      · intro it hit hq
        rcases List.mem_cons.mp hit with rfl | hit'
        · rw [hp]
          intro hq'
          exact Option.noConfusion hq'
        · exact h4 it hit' hq
      · intro it hit hq
        rcases List.mem_cons.mp hit with rfl | hit'
        · exact (h3 _ hnotin).trans hp
        · exact h5 it hit' hq
    | some p =>
      have hle : (item.quantity : Int) ≤ p.stock :=
        hok item (List.mem_cons_self _ _) p hp
      have hs : ¬ p.stock < (item.quantity : Int) := not_lt.mpr hle
      have hstep : createStockPass (item :: rest) db t =
          createStockPass rest
            (db.saveProduct item.productId { p with stock := p.stock - (item.quantity : Int) })
            (t + p.price * (item.quantity : Int)) := by
        simp [createStockPass, DB.findProduct, hp, hs]
      set db' := db.saveProduct item.productId
        { p with stock := p.stock - (item.quantity : Int) } with hdb'
      have hpres : ∀ it' ∈ rest, db'.products it'.productId = db.products it'.productId := by
        intro it' hit'
        rw [hdb', saveProduct_products, if_neg]
        intro heq
        exact hnotin (heq ▸ List.mem_map_of_mem ReqItem.productId hit')
      have hok' : ∀ it' ∈ rest, ∀ q, db'.products it'.productId = some q →
          (it'.quantity : Int) ≤ q.stock :=
        fun it' hit' q hq => hokrest it' hit' q ((hpres it' hit').symm.trans hq)
      obtain ⟨h1, h2, h3, h4, h5⟩ := ih db' (t + p.price * (item.quantity : Int)) hndrest hok'
      rw [hstep]
      refine ⟨h1, ?_, ?_, ?_, ?_⟩
      · rw [h2, passTotal_congr db db' rest hpres, passTotal_cons, hp]
        ring
      · intro pid hpid
        simp only [List.map_cons, List.mem_cons, not_or] at hpid
        refine (h3 pid hpid.2).trans ?_
        rw [hdb', saveProduct_products, if_neg hpid.1]
      · intro it hit hq
        rcases List.mem_cons.mp hit with rfl | hit'
        · intro hq'
          rw [hp] at hq'
          obtain rfl : p = hq := Option.some.inj hq'
          refine (h3 _ hnotin).trans ?_
          rw [hdb', saveProduct_products, if_pos rfl]
        · intro hq'
          exact h4 it hit' hq ((hpres it hit').trans hq')
      · intro it hit hq
        rcases List.mem_cons.mp hit with rfl | hit'
        · rw [hp] at hq
          exact Option.noConfusion hq
        · exact h5 it hit' ((hpres it hit').trans hq)

/-- A failing run of the first loop: with pairwise-distinct requested
products, if every item before `bad` whose product exists has enough stock
and `bad`'s product exists with too little, the loop aborts reporting
`bad.productId`, having decremented (and kept decremented) exactly the
earlier existing items' products. -/
theorem createStockPass_fail (done : List ReqItem) (bad : ReqItem) (rest : List ReqItem)
    (db : DB) (t : Int) (p : ProductRec)
    (hnd : ((done ++ bad :: rest).map ReqItem.productId).Nodup)
    (hdone : ∀ it ∈ done, ∀ q, db.products it.productId = some q →
      (it.quantity : Int) ≤ q.stock)
    (hbadp : db.products bad.productId = some p)
    (hbads : p.stock < (bad.quantity : Int)) :
    (createStockPass (done ++ bad :: rest) db t).1 = some bad.productId ∧
    (∀ pid, pid ∉ done.map ReqItem.productId →
      (createStockPass (done ++ bad :: rest) db t).2.2.products pid = db.products pid) ∧
    (∀ it ∈ done, ∀ q, db.products it.productId = some q →
      (createStockPass (done ++ bad :: rest) db t).2.2.products it.productId =
        some { q with stock := q.stock - (it.quantity : Int) }) := by
  induction done generalizing db t with
  | nil =>
    have hstep : createStockPass ([] ++ bad :: rest) db t = (some bad.productId, t, db) := by
      simp [createStockPass, DB.findProduct, hbadp, hbads]
    rw [hstep]
    refine ⟨rfl, fun pid _ => rfl, ?_⟩
    intro it hit
    cases hit
  | cons item done' ih =>
    rw [List.cons_append, List.map_cons, List.nodup_cons] at hnd
    obtain ⟨hnotin, hnd'⟩ := hnd
    have hdone' : ∀ it ∈ done', ∀ q, db.products it.productId = some q →
        (it.quantity : Int) ≤ q.stock :=
      fun it hit => hdone it (List.mem_cons_of_mem _ hit)
    have hne_bad : item.productId ≠ bad.productId := by
      intro heq
      exact hnotin (heq ▸ List.mem_map_of_mem ReqItem.productId
        (List.mem_append_right done' (List.mem_cons_self _ _)))
    cases hp : db.products item.productId with
    | none =>
      have hstep : createStockPass ((item :: done') ++ bad :: rest) db t =
          createStockPass (done' ++ bad :: rest) db t := by
        simp [createStockPass, DB.findProduct, hp]
      obtain ⟨h1, h2, h3⟩ := ih db t hnd' hdone' hbadp
      rw [hstep]
      refine ⟨h1, ?_, ?_⟩
      · intro pid hpid
        simp only [List.map_cons, List.mem_cons, not_or] at hpid
        exact h2 pid hpid.2
      · intro it hit q hq
        rcases List.mem_cons.mp hit with rfl | hit'
        · rw [hp] at hq
          exact Option.noConfusion hq
        · exact h3 it hit' q hq
    | some q =>
      have hle : (item.quantity : Int) ≤ q.stock :=
        hdone item (List.mem_cons_self _ _) q hp
      have hs : ¬ q.stock < (item.quantity : Int) := not_lt.mpr hle
      have hstep : createStockPass ((item :: done') ++ bad :: rest) db t =
          createStockPass (done' ++ bad :: rest)
            (db.saveProduct item.productId { q with stock := q.stock - (item.quantity : Int) })
            (t + q.price * (item.quantity : Int)) := by
        simp [createStockPass, DB.findProduct, hp, hs]
      set db' := db.saveProduct item.productId
        { q with stock := q.stock - (item.quantity : Int) } with hdb'
      have hpres : ∀ it' ∈ done', db'.products it'.productId = db.products it'.productId := by
        intro it' hit'
        rw [hdb', saveProduct_products, if_neg]
        intro heq
        exact hnotin (heq ▸ List.mem_map_of_mem ReqItem.productId
          (List.mem_append_left _ hit'))
      have hdone'' : ∀ it' ∈ done', ∀ r, db'.products it'.productId = some r →
          (it'.quantity : Int) ≤ r.stock :=
        fun it' hit' r hr => hdone' it' hit' r ((hpres it' hit').symm.trans hr)
      have hbadp' : db'.products bad.productId = some p := by
        rw [hdb', saveProduct_products, if_neg (fun heq => hne_bad heq.symm)]
        exact hbadp
      obtain ⟨h1, h2, h3⟩ :=
        ih db' (t + q.price * (item.quantity : Int)) hnd' hdone'' hbadp'
      rw [hstep]
      refine ⟨h1, ?_, ?_⟩
      · intro pid hpid
        simp only [List.map_cons, List.mem_cons, not_or] at hpid
        refine (h2 pid hpid.2).trans ?_
        rw [hdb', saveProduct_products, if_neg hpid.1]
      · intro it hit r hr
        rcases List.mem_cons.mp hit with rfl | hit'
        · rw [hp] at hr
          obtain rfl : q = r := Option.some.inj hr
          refine (h2 _ ?_).trans ?_
          · intro hmem
            exact hnotin (by
              rw [List.map_append]
              exact List.mem_append_left _ hmem)
          · rw [hdb', saveProduct_products, if_pos rfl]
        · exact h3 it hit' r ((hpres it hit').trans hr)

/-- Reduction of `createOrder` when the first loop succeeds. -/
theorem createOrder_of_pass_none (userId : Nat) (items : List ReqItem) (db db1 : DB)
    (tot : Int) (hps : createStockPass items db 0 = (none, tot, db1)) :
    createOrder userId items db =
      ({ status := 201,
         body := .orderFetched ((createItemsPass db1.nextOrderId items
            { db1 with
              orders := db1.orders ++ [{ id := db1.nextOrderId, userId := userId,
                                         totalPrice := tot, status := "pending" }],
              nextOrderId := db1.nextOrderId + 1 }).findOrder db1.nextOrderId) },
       createItemsPass db1.nextOrderId items
          { db1 with
            orders := db1.orders ++ [{ id := db1.nextOrderId, userId := userId,
                                       totalPrice := tot, status := "pending" }],
            nextOrderId := db1.nextOrderId + 1 }) := by
  simp [createOrder, hps]

/-- Reduction of `createOrder` when the first loop aborts with a 400. -/
theorem createOrder_of_pass_some (userId : Nat) (items : List ReqItem) (db db1 : DB)
    (tot : Int) (pid : Nat) (hps : createStockPass items db 0 = (some pid, tot, db1)) :
    createOrder userId items db =
      ({ status := 400, body := .errMsg (insufficientMsg pid) }, db1) := by
  simp [createOrder, hps]

/-- A store with a single product of stock 6. -/
def dbSixStock : DB :=
  { products := fun i => if i = 1 then some { price := 10, stock := 6 } else none,
    orders := [], orderItems := [], nextOrderId := 1 }

/-- Counterexample to claim C1 as stated: in `dbSixStock` the request
[(product 1, qty 3), (product 1, qty 3)] references only existing products
whose stock (6) is at least each item's quantity (3), yet product 1's stock
ends at 0, not at 6 - 3 as the claim's per-item decrement demands. -/
theorem C1_counterexample :
    dbSixStock.products 1 = some { price := 10, stock := 6 } ∧
    ((3 : Int) ≤ 6) ∧
    (createOrder 9 [{ productId := 1, quantity := 3 },
        { productId := 1, quantity := 3 }] dbSixStock).1.status = 201 ∧
    (createOrder 9 [{ productId := 1, quantity := 3 },
        { productId := 1, quantity := 3 }] dbSixStock).2.products 1 =
      some { price := 10, stock := 0 } ∧
    ¬ (createOrder 9 [{ productId := 1, quantity := 3 },
        { productId := 1, quantity := 3 }] dbSixStock).2.products 1 =
      some { price := 10, stock := 6 - 3 } := by
  decide

/-- Claim C1 as amended (pairwise-distinct requested products): when every
item references an existing product with stock at least its quantity, the
call answers 201, appends an order row with status "pending" whose total is
the sum of price times quantity over the items, and decrements each
referenced product's stock by exactly that item's quantity. -/
theorem C1_amended_create_ok (userId : Nat) (items : List ReqItem) (db : DB)
    (hnd : (items.map ReqItem.productId).Nodup)
    (hex : ∀ it ∈ items, ∃ p, db.products it.productId = some p ∧
      (it.quantity : Int) ≤ p.stock) :
    (createOrder userId items db).1.status = 201 ∧
    (createOrder userId items db).2.orders =
      db.orders ++ [{ id := db.nextOrderId, userId := userId,
                      totalPrice := passTotal db items, status := "pending" }] ∧
    (∀ it ∈ items, ∀ p, db.products it.productId = some p →
      (createOrder userId items db).2.products it.productId =
        some { p with stock := p.stock - (it.quantity : Int) }) := by
  have hok : ∀ it ∈ items, ∀ p, db.products it.productId = some p →
      (it.quantity : Int) ≤ p.stock := by
    intro it hit p hp
    obtain ⟨p', hp', hle⟩ := hex it hit
    rw [hp] at hp'
    obtain rfl : p = p' := Option.some.inj hp'
    exact hle
  obtain ⟨e1, e2, e3, e4, e5⟩ := createStockPass_ok items db 0 hnd hok
  rcases hps : createStockPass items db 0 with ⟨err, tot, db1⟩
  rw [hps] at e1 e2 e4
  obtain rfl : err = none := e1
  obtain rfl : tot = 0 + passTotal db items := e2
  obtain ⟨hOrd, hOI, hNid⟩ := createStockPass_state items db 0
  rw [hps] at hOrd hNid
  have hco := createOrder_of_pass_none userId items db db1 (0 + passTotal db items) hps
  have hOrd' : db1.orders = db.orders := hOrd
  have hNid' : db1.nextOrderId = db.nextOrderId := hNid
  refine ⟨by rw [hco], ?_, ?_⟩
  · rw [hco]
    show (createItemsPass db1.nextOrderId items _).orders = _
    rw [(createItemsPass_state _ _ _).2.1]
    show db1.orders ++ _ = _
    rw [hOrd', hNid', zero_add]
  · intro it hit p hp
    rw [hco]
    show (createItemsPass db1.nextOrderId items _).products it.productId = _
    rw [(createItemsPass_state _ _ _).1]
    exact e4 it hit p hp

/-- Witness for the amended C1 on the spec's own concrete scenario:
product 1 (price 10, stock 5), one item of quantity 3. -/
theorem C1_witness :
    ((([{ productId := 1, quantity := 3 }] : List ReqItem).map ReqItem.productId).Nodup) ∧
    dbOneProduct.products 1 = some { price := 10, stock := 5 } ∧
    ((createOrder 9 [{ productId := 1, quantity := 3 }] dbOneProduct).1.status = 201 ∧
     (createOrder 9 [{ productId := 1, quantity := 3 }] dbOneProduct).2.orders =
       dbOneProduct.orders ++
         [{ id := dbOneProduct.nextOrderId, userId := 9,
            totalPrice := passTotal dbOneProduct [{ productId := 1, quantity := 3 }],
            status := "pending" }] ∧
     (∀ it ∈ ([{ productId := 1, quantity := 3 }] : List ReqItem), ∀ p,
       dbOneProduct.products it.productId = some p →
       (createOrder 9 [{ productId := 1, quantity := 3 }] dbOneProduct).2.products it.productId =
         some { p with stock := p.stock - (it.quantity : Int) })) :=
  ⟨by decide, rfl,
    C1_amended_create_ok 9 [{ productId := 1, quantity := 3 }] dbOneProduct (by decide)
      (by
        intro it hit
        rw [List.mem_singleton] at hit
        subst hit
        exact ⟨{ price := 10, stock := 5 }, rfl, by decide⟩)⟩

/-- A store with product 1 in stock (5) and product 2 out of stock (0). -/
def dbTwoProducts : DB :=
  { products := fun i =>
      if i = 1 then some { price := 10, stock := 5 }
      else if i = 2 then some { price := 10, stock := 0 } else none,
    orders := [], orderItems := [], nextOrderId := 1 }

/-- Counterexample to claim C2 as stated: in `dbTwoProducts` the request
[(1,3), (1,3), (2,1)] contains an item — the third — whose product (2) exists
with stock 0 below its quantity 1; judged against the request-time state it is
the first such item (both earlier items have stock 5 at least quantity 3),
yet the call reports product 1, because the second (1,3) item fails against
the already-decremented stock. -/
theorem C2_counterexample :
    dbTwoProducts.products 2 = some { price := 10, stock := 0 } ∧
    ((0 : Int) < 1) ∧
    (∀ it ∈ [({ productId := 1, quantity := 3 } : ReqItem),
        { productId := 1, quantity := 3 }],
      dbTwoProducts.products it.productId = some { price := 10, stock := 5 } ∧
        (it.quantity : Int) ≤ 5) ∧
    (createOrder 9 [{ productId := 1, quantity := 3 }, { productId := 1, quantity := 3 },
        { productId := 2, quantity := 1 }] dbTwoProducts).1.body =
      .errMsg (insufficientMsg 1) ∧
    ¬ (createOrder 9 [{ productId := 1, quantity := 3 }, { productId := 1, quantity := 3 },
        { productId := 2, quantity := 1 }] dbTwoProducts).1.body =
      .errMsg (insufficientMsg 2) := by
  decide

/-- Claim C2 as amended (pairwise-distinct requested products): when the
items before `bad` all pass the stock check and `bad`'s product exists with
stock below its quantity, the call answers 400 naming `bad`'s product, creates
no order row and no order-item row, keeps the earlier items' stock decrements
(no rollback), and touches no other product. -/
theorem C2_amended_insufficient (userId : Nat) (done : List ReqItem) (bad : ReqItem)
    (rest : List ReqItem) (db : DB) (p : ProductRec)
    (hnd : ((done ++ bad :: rest).map ReqItem.productId).Nodup)
    (hdone : ∀ it ∈ done, ∀ q, db.products it.productId = some q →
      (it.quantity : Int) ≤ q.stock)
    (hbadp : db.products bad.productId = some p)
    (hbads : p.stock < (bad.quantity : Int)) :
    (createOrder userId (done ++ bad :: rest) db).1 =
      { status := 400, body := .errMsg (insufficientMsg bad.productId) } ∧
    (createOrder userId (done ++ bad :: rest) db).2.orders = db.orders ∧
    (createOrder userId (done ++ bad :: rest) db).2.orderItems = db.orderItems ∧
    (∀ it ∈ done, ∀ q, db.products it.productId = some q →
      (createOrder userId (done ++ bad :: rest) db).2.products it.productId =
        some { q with stock := q.stock - (it.quantity : Int) }) ∧
    (∀ pid, pid ∉ done.map ReqItem.productId →
      (createOrder userId (done ++ bad :: rest) db).2.products pid = db.products pid) := by
  obtain ⟨e1, e2, e3⟩ := createStockPass_fail done bad rest db 0 p hnd hdone hbadp hbads
  rcases hps : createStockPass (done ++ bad :: rest) db 0 with ⟨err, tot, db1⟩
  rw [hps] at e1 e2 e3
  obtain rfl : err = some bad.productId := e1
  have hco := createOrder_of_pass_some userId (done ++ bad :: rest) db db1 tot bad.productId hps
  obtain ⟨hOrd, hOI, _⟩ := createStockPass_state (done ++ bad :: rest) db 0
  rw [hps] at hOrd hOI
  refine ⟨by rw [hco], ?_, ?_, ?_, ?_⟩
  · rw [hco]; exact hOrd
  · rw [hco]; exact hOI
  · intro it hit q hq
    rw [hco]
    exact e3 it hit q hq
  · intro pid hpid
    rw [hco]
    exact e2 pid hpid

/-- Witness for the amended C2: item (1,3) passes, then item (2,1) hits the
out-of-stock product 2; the 400 names product 2 and product 1 stays
decremented. -/
theorem C2_witness :
    dbTwoProducts.products 2 = some { price := 10, stock := 0 } ∧
    ((0 : Int) < 1) ∧
    ((createOrder 9 ([{ productId := 1, quantity := 3 }] ++
        { productId := 2, quantity := 1 } :: []) dbTwoProducts).1 =
      { status := 400, body := .errMsg (insufficientMsg 2) } ∧
     (createOrder 9 ([{ productId := 1, quantity := 3 }] ++
        { productId := 2, quantity := 1 } :: []) dbTwoProducts).2.orders =
       dbTwoProducts.orders ∧
     (createOrder 9 ([{ productId := 1, quantity := 3 }] ++
        { productId := 2, quantity := 1 } :: []) dbTwoProducts).2.orderItems =
       dbTwoProducts.orderItems ∧
     (∀ it ∈ ([{ productId := 1, quantity := 3 }] : List ReqItem), ∀ q,
       dbTwoProducts.products it.productId = some q →
       (createOrder 9 ([{ productId := 1, quantity := 3 }] ++
          { productId := 2, quantity := 1 } :: []) dbTwoProducts).2.products it.productId =
         some { q with stock := q.stock - (it.quantity : Int) }) ∧
     (∀ pid, pid ∉ ([{ productId := 1, quantity := 3 }] : List ReqItem).map ReqItem.productId →
       (createOrder 9 ([{ productId := 1, quantity := 3 }] ++
          { productId := 2, quantity := 1 } :: []) dbTwoProducts).2.products pid =
         dbTwoProducts.products pid)) :=
  ⟨rfl, by decide,
    C2_amended_insufficient 9 [{ productId := 1, quantity := 3 }]
      { productId := 2, quantity := 1 } [] dbTwoProducts { price := 10, stock := 0 }
      (by decide)
      (by
        intro it hit q hq
        rw [List.mem_singleton] at hit
        subst hit
        have hq' : (some { price := 10, stock := 5 } : Option ProductRec) = some q := hq
        obtain rfl : ({ price := 10, stock := 5 } : ProductRec) = q := Option.some.inj hq'
        decide)
      rfl (by decide)⟩

/-! Characterization of the delete-order stock restoration. -/

/-- Total quantity the restore loop adds to product `pid` for a given list of
order items: the sum of the quantities of the items referencing `pid`. -/
def restoredQty (pid : Nat) (items : List OrderItemRec) : Int :=
  ((items.filter (fun it => it.productId == pid)).map (fun it => (it.quantity : Int))).sum

/-- Running the restore loop adds exactly `restoredQty` to an existing
product's stock. -/
theorem restoreStock_products_some (items : List OrderItemRec) (db : DB) (pid : Nat)
    (p : ProductRec) (h : db.products pid = some p) :
    (restoreStock items db).products pid =
      some { p with stock := p.stock + restoredQty pid items } := by
  induction items generalizing db p with
  | nil => simp [restoreStock, restoredQty, h]
  | cons it rest ih =>
    cases hp : db.products it.productId with
    | none =>
      have hstep : restoreStock (it :: rest) db = restoreStock rest db := by
        simp [restoreStock, DB.findProduct, hp]
      have hne : it.productId ≠ pid := by
        intro heq
        rw [heq, h] at hp
        exact Option.noConfusion hp
      have hq : restoredQty pid (it :: rest) = restoredQty pid rest := by
        simp [restoredQty, List.filter_cons, hne]
      rw [hstep, hq]
      exact ih db p h
    | some q =>
      have hstep : restoreStock (it :: rest) db =
          restoreStock rest
            (db.saveProduct it.productId { q with stock := q.stock + (it.quantity : Int) }) := by
        simp [restoreStock, DB.findProduct, hp]
      by_cases hpe : it.productId = pid
      · have hq' : db.products pid = some q := by rw [← hpe]; exact hp
        rw [h] at hq'
        obtain rfl : p = q := Option.some.inj hq'
        have hsave : (db.saveProduct it.productId
            { p with stock := p.stock + (it.quantity : Int) }).products pid =
            some { p with stock := p.stock + (it.quantity : Int) } := by
          rw [saveProduct_products, if_pos hpe.symm]
        have hq : restoredQty pid (it :: rest) =
            (it.quantity : Int) + restoredQty pid rest := by
          simp [restoredQty, List.filter_cons, hpe]
        rw [hstep, hq, ← add_assoc]
        exact ih _ _ hsave
      · have hsave : (db.saveProduct it.productId
            { q with stock := q.stock + (it.quantity : Int) }).products pid =
            some p := by
          rw [saveProduct_products, if_neg (fun heq => hpe heq.symm)]
          exact h
        have hq : restoredQty pid (it :: rest) = restoredQty pid rest := by
          simp [restoredQty, List.filter_cons, hpe]
        rw [hstep, hq]
        exact ih _ _ hsave

/-- The restore loop never resurrects a missing product. -/
theorem restoreStock_products_none (items : List OrderItemRec) (db : DB) (pid : Nat)
    (h : db.products pid = none) :
    (restoreStock items db).products pid = none := by
  induction items generalizing db with
  | nil => exact h
  | cons it rest ih =>
    cases hp : db.products it.productId with
    | none =>
      have hstep : restoreStock (it :: rest) db = restoreStock rest db := by
        simp [restoreStock, DB.findProduct, hp]
      rw [hstep]
      exact ih db h
    | some q =>
      have hstep : restoreStock (it :: rest) db =
          restoreStock rest
            (db.saveProduct it.productId { q with stock := q.stock + (it.quantity : Int) }) := by
        simp [restoreStock, DB.findProduct, hp]
      have hne : pid ≠ it.productId := by
        intro heq
        rw [← heq, h] at hp
        exact Option.noConfusion hp
      have hsave : (db.saveProduct it.productId
          { q with stock := q.stock + (it.quantity : Int) }).products pid = none := by
        rw [saveProduct_products, if_neg hne]
        exact h
      rw [hstep]
      exact ih _ hsave

/-- Reduction of `deleteOrder` on an existing order. -/
theorem deleteOrder_of_found (oid : Nat) (db : DB) (o : OrderRec)
    (ho : db.findOrder oid = some o) :
    deleteOrder oid db =
      ({ status := 200,
         body := .deletedMsg "Order Deleted"
           (((restoreStock (db.orderItems.filter (fun it => it.orderId == oid)) db).orders.filter
              (fun q => q.id == oid)).length) },
       { products := (restoreStock (db.orderItems.filter (fun it => it.orderId == oid)) db).products,
         orders := (restoreStock (db.orderItems.filter (fun it => it.orderId == oid)) db).orders.filter
           (fun q => q.id != oid),
         orderItems := (restoreStock (db.orderItems.filter (fun it => it.orderId == oid)) db).orderItems.filter
           (fun it => it.orderId != oid),
         nextOrderId := (restoreStock (db.orderItems.filter (fun it => it.orderId == oid)) db).nextOrderId }) := by
  unfold deleteOrder
  rw [ho]

/-- Claim C4 as amended: deleting an existing order answers 200 with the
deletion count, removes the order row and every order item referencing it,
and raises each still-existing product's stock by the sum of the quantities
of the deleted order's items that reference it (missing products stay
missing). -/
theorem C4_amended_delete (oid : Nat) (db : DB) (o : OrderRec)
    (ho : db.findOrder oid = some o) :
    (deleteOrder oid db).1 =
      { status := 200,
        body := .deletedMsg "Order Deleted"
          ((db.orders.filter (fun q => q.id == oid)).length) } ∧
    (deleteOrder oid db).2.orders = db.orders.filter (fun q => q.id != oid) ∧
    (deleteOrder oid db).2.orderItems = db.orderItems.filter (fun it => it.orderId != oid) ∧
    (∀ it ∈ (deleteOrder oid db).2.orderItems, it.orderId ≠ oid) ∧
    (∀ pid p, db.products pid = some p →
      (deleteOrder oid db).2.products pid =
        some { p with
          stock := p.stock + restoredQty pid (db.orderItems.filter (fun it => it.orderId == oid)) }) ∧
    (∀ pid, db.products pid = none → (deleteOrder oid db).2.products pid = none) := by
  have hst := restoreStock_state (db.orderItems.filter (fun it => it.orderId == oid)) db
  obtain ⟨hOrd, hOI, _⟩ := hst
  have hred := deleteOrder_of_found oid db o ho
  have h2 : (deleteOrder oid db).2.orderItems =
      db.orderItems.filter (fun it => it.orderId != oid) := by
    rw [hred]
    show (restoreStock _ db).orderItems.filter _ = _
    rw [hOI]
  refine ⟨?_, ?_, h2, ?_, ?_, ?_⟩
  · rw [hred]
    show ({ status := 200, body := .deletedMsg "Order Deleted" _ } : Resp) = _
    rw [hOrd]
  · rw [hred]
    show (restoreStock _ db).orders.filter _ = _
    rw [hOrd]
  · intro it hit
    rw [h2] at hit
    have := (List.mem_filter.mp hit).2
    simpa using this
  · intro pid p hp
    rw [hred]
    exact restoreStock_products_some _ db pid p hp
  · intro pid hp
    rw [hred]
    exact restoreStock_products_none _ db pid hp

/-- A store whose single order has two items for the same product 7. -/
def dbDupItems : DB :=
  { products := fun i => if i = 7 then some { price := 1, stock := 0 } else none,
    orders := [{ id := 1, userId := 4, totalPrice := 5, status := "pending" }],
    orderItems := [{ orderId := 1, productId := 7, quantity := 2, price := 1 },
                   { orderId := 1, productId := 7, quantity := 3, price := 1 }],
    nextOrderId := 2 }

/-- Counterexample to claim C4 as stated: order 1 holds two items for the
still-existing product 7 (quantities 2 and 3, pre-delete stock 0); after the
delete the stock is 5, not "pre-delete stock plus that item's quantity"
(0 + 2) for the quantity-2 item. -/
theorem C4_counterexample :
    dbDupItems.findOrder 1 =
      some { id := 1, userId := 4, totalPrice := 5, status := "pending" } ∧
    (deleteOrder 1 dbDupItems).1.status = 200 ∧
    (deleteOrder 1 dbDupItems).2.products 7 = some { price := 1, stock := 5 } ∧
    ¬ (deleteOrder 1 dbDupItems).2.products 7 = some { price := 1, stock := 0 + 2 } := by
  decide

/-- Witness for the amended C4 on `dbDupItems`, whose order 1 exists. -/
theorem C4_witness :
    dbDupItems.findOrder 1 =
      some { id := 1, userId := 4, totalPrice := 5, status := "pending" } ∧
    ((deleteOrder 1 dbDupItems).1 =
      { status := 200,
        body := .deletedMsg "Order Deleted"
          ((dbDupItems.orders.filter (fun q => q.id == 1)).length) } ∧
     (deleteOrder 1 dbDupItems).2.orders = dbDupItems.orders.filter (fun q => q.id != 1) ∧
     (deleteOrder 1 dbDupItems).2.orderItems =
       dbDupItems.orderItems.filter (fun it => it.orderId != 1) ∧
     (∀ it ∈ (deleteOrder 1 dbDupItems).2.orderItems, it.orderId ≠ 1) ∧
     (∀ pid p, dbDupItems.products pid = some p →
       (deleteOrder 1 dbDupItems).2.products pid =
         some { p with
           stock := p.stock + restoredQty pid (dbDupItems.orderItems.filter (fun it => it.orderId == 1)) }) ∧
     (∀ pid, dbDupItems.products pid = none →
       (deleteOrder 1 dbDupItems).2.products pid = none)) :=
  ⟨rfl, C4_amended_delete 1 dbDupItems
    { id := 1, userId := 4, totalPrice := 5, status := "pending" } rfl⟩

/-! Silent skipping of items whose product does not exist. -/

/-- The first loop never creates a product row: a missing product stays
missing through the whole pass. -/
theorem createStockPass_none_preserved (items : List ReqItem) (db : DB) (t : Int)
    (pid : Nat) (h : db.products pid = none) :
    (createStockPass items db t).2.2.products pid = none := by
  induction items generalizing db t with
  | nil => exact h
  | cons item rest ih =>
    cases hp : db.products item.productId with
    | none =>
      have hstep : createStockPass (item :: rest) db t = createStockPass rest db t := by
        simp [createStockPass, DB.findProduct, hp]
      rw [hstep]
      exact ih db t h
    | some p =>
      by_cases hs : p.stock < (item.quantity : Int)
      · have hstep : createStockPass (item :: rest) db t = (some item.productId, t, db) := by
          simp [createStockPass, DB.findProduct, hp, hs]
        rw [hstep]
        exact h
      · have hstep : createStockPass (item :: rest) db t =
            createStockPass rest
              (db.saveProduct item.productId { p with stock := p.stock - (item.quantity : Int) })
              (t + p.price * (item.quantity : Int)) := by
          simp [createStockPass, DB.findProduct, hp, hs]
        have hne : pid ≠ item.productId := by
          intro heq
          rw [← heq, h] at hp
          exact Option.noConfusion hp
        have hsave : (db.saveProduct item.productId
            { p with stock := p.stock - (item.quantity : Int) }).products pid = none := by
          rw [saveProduct_products, if_neg hne]
          exact h
        rw [hstep]
        exact ih _ _ hsave

/-- Dropping an item whose product is missing does not change the first
loop's outcome at all. -/
theorem createStockPass_skip (pre post : List ReqItem) (it : ReqItem) (db : DB) (t : Int)
    (hmiss : db.products it.productId = none) :
    createStockPass (pre ++ it :: post) db t = createStockPass (pre ++ post) db t := by
  induction pre generalizing db t with
  | nil =>
    simp only [List.nil_append]
    simp [createStockPass, DB.findProduct, hmiss]
  | cons hd pre' ih =>
    simp only [List.cons_append]
    cases hp : db.products hd.productId with
    | none =>
      have h1 : createStockPass (hd :: (pre' ++ it :: post)) db t =
          createStockPass (pre' ++ it :: post) db t := by
        simp [createStockPass, DB.findProduct, hp]
      have h2 : createStockPass (hd :: (pre' ++ post)) db t =
          createStockPass (pre' ++ post) db t := by
        simp [createStockPass, DB.findProduct, hp]
      rw [h1, h2]
      exact ih db t hmiss
    | some p =>
      by_cases hs : p.stock < (hd.quantity : Int)
      · have h1 : createStockPass (hd :: (pre' ++ it :: post)) db t =
            (some hd.productId, t, db) := by
          simp [createStockPass, DB.findProduct, hp, hs]
        have h2 : createStockPass (hd :: (pre' ++ post)) db t =
            (some hd.productId, t, db) := by
          simp [createStockPass, DB.findProduct, hp, hs]
        rw [h1, h2]
      · have h1 : createStockPass (hd :: (pre' ++ it :: post)) db t =
            createStockPass (pre' ++ it :: post)
              (db.saveProduct hd.productId { p with stock := p.stock - (hd.quantity : Int) })
              (t + p.price * (hd.quantity : Int)) := by
          simp [createStockPass, DB.findProduct, hp, hs]
        have h2 : createStockPass (hd :: (pre' ++ post)) db t =
            createStockPass (pre' ++ post)
              (db.saveProduct hd.productId { p with stock := p.stock - (hd.quantity : Int) })
              (t + p.price * (hd.quantity : Int)) := by
          simp [createStockPass, DB.findProduct, hp, hs]
        have hne : it.productId ≠ hd.productId := by
          intro heq
          rw [← heq, hmiss] at hp
          exact Option.noConfusion hp
        have hmiss' : (db.saveProduct hd.productId
            { p with stock := p.stock - (hd.quantity : Int) }).products it.productId = none := by
          rw [saveProduct_products, if_neg hne]
          exact hmiss
        rw [h1, h2]
        exact ih _ _ hmiss'

/-- Dropping an item whose product is missing does not change the second
loop's outcome either: the item creates no order-item row. -/
theorem createItemsPass_skip (oid : Nat) (pre post : List ReqItem) (it : ReqItem) (db : DB)
    (hmiss : db.products it.productId = none) :
    createItemsPass oid (pre ++ it :: post) db = createItemsPass oid (pre ++ post) db := by
  induction pre generalizing db with
  | nil =>
    simp only [List.nil_append]
    simp [createItemsPass, DB.findProduct, hmiss]
  | cons hd pre' ih =>
    simp only [List.cons_append]
    cases hp : db.products hd.productId with
    | none =>
      have h1 : createItemsPass oid (hd :: (pre' ++ it :: post)) db =
          createItemsPass oid (pre' ++ it :: post) db := by
        simp [createItemsPass, DB.findProduct, hp]
      have h2 : createItemsPass oid (hd :: (pre' ++ post)) db =
          createItemsPass oid (pre' ++ post) db := by
        simp [createItemsPass, DB.findProduct, hp]
      rw [h1, h2]
      exact ih db hmiss
    | some p =>
      have h1 : createItemsPass oid (hd :: (pre' ++ it :: post)) db =
          createItemsPass oid (pre' ++ it :: post)
            { db with
              orderItems := db.orderItems ++
                [{ orderId := oid, productId := hd.productId,
                   quantity := hd.quantity, price := p.price }] } := by
        simp [createItemsPass, DB.findProduct, hp]
      have h2 : createItemsPass oid (hd :: (pre' ++ post)) db =
          createItemsPass oid (pre' ++ post)
            { db with
              orderItems := db.orderItems ++
                [{ orderId := oid, productId := hd.productId,
                   quantity := hd.quantity, price := p.price }] } := by
        simp [createItemsPass, DB.findProduct, hp]
      rw [h1, h2]
      exact ih _ hmiss

/-- Claim C7: an item referencing a missing product is skipped silently — the
whole call (response and final state, hence total, stock, and order items) is
identical to the call without that item. -/
theorem C7_missing_item_noop (userId : Nat) (pre post : List ReqItem)
    (it : ReqItem) (db : DB) (hmiss : db.products it.productId = none) :
    createOrder userId (pre ++ it :: post) db = createOrder userId (pre ++ post) db := by
  have hpass := createStockPass_skip pre post it db 0 hmiss
  rcases hps : createStockPass (pre ++ post) db 0 with ⟨err, tot, db1⟩
  have hps' : createStockPass (pre ++ it :: post) db 0 = (err, tot, db1) :=
    hpass.trans hps
  cases err with
  | some pid =>
    rw [createOrder_of_pass_some userId _ db db1 tot pid hps',
      createOrder_of_pass_some userId _ db db1 tot pid hps]
  | none =>
    have hmiss1 : db1.products it.productId = none := by
      have hkeep := createStockPass_none_preserved (pre ++ post) db 0 it.productId hmiss
      rw [hps] at hkeep
      exact hkeep
    rw [createOrder_of_pass_none userId _ db db1 tot hps',
      createOrder_of_pass_none userId _ db db1 tot hps]
    have hmiss2 : (({ db1 with
        orders := db1.orders ++ [{ id := db1.nextOrderId, userId := userId,
                                   totalPrice := tot, status := "pending" }],
        nextOrderId := db1.nextOrderId + 1 } : DB)).products it.productId = none := hmiss1
    rw [createItemsPass_skip db1.nextOrderId pre post it _ hmiss2]

/-- Witness for C7: product 2 does not exist in `dbOneProduct`, and the
request containing only the item (2,5) behaves exactly like the empty
request. -/
theorem C7_witness :
    dbOneProduct.products 2 = none ∧
    createOrder 9 ([] ++ { productId := 2, quantity := 5 } :: []) dbOneProduct =
      createOrder 9 ([] ++ []) dbOneProduct :=
  ⟨rfl, C7_missing_item_noop 9 [] [] { productId := 2, quantity := 5 } dbOneProduct rfl⟩
